import Mathlib

/-!
Shallow embedding of `src/FDA4.py`, the FDA drug-approval dashboard.

The program builds one openFDA search expression from user inputs
(lines 27-54), performs a single GET (lines 57-65), normalizes each raw
JSON record to a fixed-shape row (lines 70-83), buckets the rows by
approval month (lines 84-87), and renders a table, a bar chart and a CSV
download (lines 89-111).

Strings are modelled as lists of characters, machine dates as triples of
naturals, fallible Python expressions (`[0]` on a possibly-empty list) as
`Option`.
-/

namespace FDA

/-- Program strings are lists of characters. -/
abbrev Str := List Char

/-- Coerce a Lean string literal to the model's string type. -/
def lit (s : String) : Str := s.data

/-- A calendar date, as Python's `datetime.date` (year, month, day). -/
structure Date where
  year : Nat
  month : Nat
  day : Nat
deriving DecidableEq, Repr

/-- Chronological strict order on dates (Python date comparison `<`). -/
def Date.lt (a b : Date) : Prop :=
  a.year < b.year ∨
    (a.year = b.year ∧ (a.month < b.month ∨ (a.month = b.month ∧ a.day < b.day)))

instance (a b : Date) : Decidable (Date.lt a b) :=
  inferInstanceAs (Decidable (_ ∨ _))

/-- Decimal digits of a natural number, most significant first. -/
def natDigits (n : Nat) : Str := Nat.toDigits 10 n

/-- Left-pad with `'0'` to width `w`, as Python `strftime` zero-padding. -/
def padZero (w : Nat) (s : Str) : Str := List.replicate (w - s.length) '0' ++ s

/-- `date.strftime("%Y%m%d")` (FDA4.py lines 31-32). -/
def fmtYYYYMMDD (d : Date) : Str :=
  padZero 4 (natDigits d.year) ++ padZero 2 (natDigits d.month) ++
    padZero 2 (natDigits d.day)

/-- The sidebar inputs of the app: two dates and two free-text fields
(FDA4.py lines 17-24). Empty text models the Python falsy empty string. -/
structure SearchFilter where
  start_date : Date
  end_date : Date
  manufacturer_name : Str
  generic_name : Str

/-- The request parameters: the search expression and the fixed
`limit = 500` (FDA4.py lines 51-54). -/
structure QuerySpec where
  search : Str
  limit : Nat
deriving Repr

/-- The initial search expression of FDA4.py line 35: the date-range
clause alone. -/
def baseQuery (f : SearchFilter) : Str :=
  lit "effective_time:[" ++ fmtYYYYMMDD f.start_date ++ lit " TO " ++
    fmtYYYYMMDD f.end_date ++ lit "]"

/-- The expression after lines 38-40: when the manufacturer input is
non-empty (Python truthiness), AND in a prefix-wildcard clause built
from its first 4 characters. -/
def manQuery (f : SearchFilter) : Str :=
  if f.manufacturer_name ≠ [] then
    baseQuery f ++ lit " AND openfda.manufacturer_name:" ++
      f.manufacturer_name.take 4 ++ lit "*"
  else baseQuery f

/-- The final search expression after lines 43-48: when the generic-name
input is non-empty, AND in an exact clause (full quoted string) if it is
longer than 4 characters, else a prefix-wildcard clause from its first 4
characters. -/
def searchQuery (f : SearchFilter) : Str :=
  if f.generic_name ≠ [] then
    if f.generic_name.length > 4 then
      manQuery f ++ lit " AND openfda.generic_name.exact:\"" ++
        f.generic_name ++ lit "\""
    else
      manQuery f ++ lit " AND openfda.generic_name:" ++
        f.generic_name.take 4 ++ lit "*"
  else manQuery f

/-- Outcome of the top-level date validation (FDA4.py lines 27-29):
either the error message, or the request parameters of the else branch. -/
inductive BuildResult where
  | validationError
  | query (spec : QuerySpec)
deriving Repr

/-- Lines 27-54: if `start_date > end_date` report a validation error,
otherwise build the search expression and the request parameters. -/
def buildQuery (f : SearchFilter) : BuildResult :=
  if Date.lt f.end_date f.start_date then BuildResult.validationError
  else BuildResult.query ⟨searchQuery f, 500⟩

/-- The `openfda` sub-object of a raw record: three optional
string-array fields (the ones the program reads). -/
structure OpenFda where
  brand_name : Option (List Str)
  generic_name : Option (List Str)
  manufacturer_name : Option (List Str)

/-- A raw registry record as the program reads it: an optional `openfda`
sub-object and an optional top-level `effective_time` string. -/
structure RawRecord where
  openfda : Option OpenFda
  effective_time : Option Str

/-- `drug.get('openfda', {}).get(field, ['N/A'])[0]` (FDA4.py lines
73-75): default to `['N/A']` when the key is absent, then index 0 —
which fails (`none`) when the stored list is present but empty. -/
def getField (v : Option (List Str)) : Option Str :=
  (v.getD [ lit "N/A"]).head?

/-- The value the spec prescribes for an openfda name field: element 0
if the sequence is present and non-empty, else the sentinel `"N/A"`. -/
def specField (v : Option (List Str)) : Str :=
  match v with
  | none => lit "N/A"
  | some [] => lit "N/A"
  | some (x :: _) => x

/-- An openfda field value that is either absent or a non-empty
sequence (the shapes on which the Python indexing cannot raise). -/
def presentNonempty (v : Option (List Str)) : Prop :=
  ∀ l, v = some l → l ≠ []

/-- A digit character's value; `none` for a non-digit. -/
def digitVal (c : Char) : Option Nat :=
  if c.isDigit then some (c.toNat - 48) else none

/-- Gregorian leap-year test. -/
def isLeap (y : Nat) : Bool := (y % 4 == 0 && y % 100 != 0) || y % 400 == 0

/-- Days in a month of the Gregorian calendar. -/
def daysInMonth (y m : Nat) : Nat :=
  if m = 2 then (if isLeap y then 29 else 28)
  else if m = 4 ∨ m = 6 ∨ m = 9 ∨ m = 11 then 30
  else 31

/-- `pd.to_datetime(s, errors='coerce', format='%Y%m%d')` on one cell
(FDA4.py line 83): eight digits forming a valid calendar date parse to
that date, anything else coerces to null (`NaT`). -/
def parseYYYYMMDD (s : Str) : Option Date :=
  match s with
  | [c7, c6, c5, c4, c3, c2, c1, c0] => do
    let a ← digitVal c7
    let b ← digitVal c6
    let c ← digitVal c5
    let d ← digitVal c4
    let e ← digitVal c3
    let f ← digitVal c2
    let g ← digitVal c1
    let h ← digitVal c0
    let y := ((a * 10 + b) * 10 + c) * 10 + d
    let m := e * 10 + f
    let dy := g * 10 + h
    if 1 ≤ m ∧ m ≤ 12 ∧ 1 ≤ dy ∧ dy ≤ daysInMonth y m then
      some ⟨y, m, dy⟩
    else none
  | _ => none

/-- One row of the dataframe after line 83: the three name columns as
strings, the `Effective Time` column as a parsed date or null. -/
structure NormalizedRow where
  brand_name : Str
  generic_name : Str
  manufacturer_name : Str
  effective_time : Option Date
deriving DecidableEq, Repr

/-- FDA4.py lines 72-77 combined with the column coercion of line 83:
each openfda name field defaults to `['N/A']` then takes element 0
(failing on a present empty list), and `effective_time` defaults to the
string `'N/A'` then is coerced to a date or null. -/
def normalize (r : RawRecord) : Option NormalizedRow := do
  let b ← getField (r.openfda.getD ⟨none, none, none⟩).brand_name
  let g ← getField (r.openfda.getD ⟨none, none, none⟩).generic_name
  let m ← getField (r.openfda.getD ⟨none, none, none⟩).manufacturer_name
  pure ⟨b, g, m, parseYYYYMMDD (r.effective_time.getD (lit "N/A"))⟩

/-- `df['Effective Time'].dt.to_period('M')` on one row: the (year,
month) bucket key, or null for a null date. -/
def rowMonth (r : NormalizedRow) : Option (Nat × Nat) :=
  r.effective_time.map fun d => (d.year, d.month)

/-- The non-null month keys of a row sequence, in row order. -/
def monthKeys (rows : List NormalizedRow) : List (Nat × Nat) :=
  rows.filterMap rowMonth

/-- Boolean chronological order on (year, month) bucket keys, the order
pandas sorts `Period('M')` group keys in. -/
def monthLe (a b : Nat × Nat) : Bool :=
  Nat.blt a.1 b.1 || (a.1 == b.1 && Nat.ble a.2 b.2)

/-- `df.groupby('Approval Month').size()` (FDA4.py line 87): null keys
are dropped, the distinct keys are sorted chronologically, and each key
is paired with the number of rows in its bucket. -/
def aggregate (rows : List NormalizedRow) : List ((Nat × Nat) × Nat) :=
  ((monthKeys rows).dedup.mergeSort monthLe).map
    fun k => (k, (monthKeys rows).count k)

/-- `date` rendered as pandas prints a Timestamp in CSV: ISO `Y-m-d`. -/
def fmtIsoDate (d : Date) : Str :=
  padZero 4 (natDigits d.year) ++ lit "-" ++ padZero 2 (natDigits d.month) ++
    lit "-" ++ padZero 2 (natDigits d.day)

/-- A `Period('M')` rendered as pandas prints it: `Y-m`. -/
def fmtPeriodM (d : Date) : Str :=
  padZero 4 (natDigits d.year) ++ lit "-" ++ padZero 2 (natDigits d.month)

/-- The `Effective Time` CSV cell: ISO date, empty for null (`NaT`). -/
def csvCellDate : Option Date → Str
  | none => []
  | some d => fmtIsoDate d

/-- The `Approval Month` CSV cell: `Y-m`, empty for null. -/
def csvCellMonth : Option Date → Str
  | none => []
  | some d => fmtPeriodM d

/-- The four dataframe columns created at FDA4.py line 80, in insertion
order. -/
def dfBaseColumns : List Str :=
  [ lit "Brand Name", lit "Generic Name", lit "Manufacturer Name",
    lit "Effective Time"]

/-- The dataframe columns at export time (line 103): line 84 has added
the `Approval Month` column before `to_csv` runs. -/
def dfExportColumns : List Str := dfBaseColumns ++ [ lit "Approval Month"]

/-- One CSV body line for a row (field quoting elided: no model field
contains the delimiter). -/
def csvRow (r : NormalizedRow) : Str :=
  List.intercalate (lit ",")
    [r.brand_name, r.generic_name, r.manufacturer_name,
      csvCellDate r.effective_time, csvCellMonth r.effective_time]

/-- `df.to_csv(index=False)` (FDA4.py line 103) as a list of lines: the
header line of the export columns, then one line per row, no index. -/
def toCsv (rows : List NormalizedRow) : List Str :=
  List.intercalate (lit ",") dfExportColumns :: rows.map csvRow

/-- The observable outcome of one GET: a transport-level failure, or a
response with an HTTP status and an optional `results` array. -/
inductive HttpOutcome where
  | transportError
  | response (status : Nat) (results : Option (List RawRecord))

/-- `response.raise_for_status()` raises exactly on 4xx and 5xx. -/
def statusRaises (s : Nat) : Bool := 400 ≤ s && s < 600

/-- Result of the fetch: the caught `RequestException` branch, or the
extracted `results` list (`data.get('results', [])`, FDA4.py line 65). -/
inductive FetchResult where
  | networkError
  | ok (records : List RawRecord)

/-- FDA4.py lines 60-65 and 113-114: a transport failure or a raising
status becomes the error branch; otherwise the `results` array, missing
defaulted to `[]`, is returned. -/
def fetch : HttpOutcome → FetchResult
  | HttpOutcome.transportError => FetchResult.networkError
  | HttpOutcome.response s results =>
      if statusRaises s then FetchResult.networkError
      else FetchResult.ok (results.getD [])

/-- What the page shows after the button press: the error message, the
informational empty-result message, or the table/chart/download built
from the records (FDA4.py lines 68-114). -/
inductive Display where
  | errorMessage
  | infoMessage
  | table (records : List RawRecord)

/-- Lines 68-114: error branch shows the error, empty results show the
info message, non-empty results produce the table, chart and download. -/
def handleFetch (o : HttpOutcome) : Display :=
  match fetch o with
  | FetchResult.networkError => Display.errorMessage
  | FetchResult.ok [] => Display.infoMessage
  | FetchResult.ok records => Display.table records

/-- The whole button press (FDA4.py lines 27-114): the date validation
gates everything; only the else branch ever performs the GET. -/
inductive AppOutcome where
  | validationError
  | fetched (d : Display)

/-- Run the app on a filter and the outcome the network would give: the
validation error short-circuits without consuming the network outcome. -/
def runApp (f : SearchFilter) (o : HttpOutcome) : AppOutcome :=
  match buildQuery f with
  | BuildResult.validationError => AppOutcome.validationError
  | BuildResult.query _ => AppOutcome.fetched (handleFetch o)

/-- The four rows of the spec's aggregation test: 2024-10-05,
2024-10-20, 2024-11-02 and one null-dated row. -/
def rows4 : List NormalizedRow :=
  [⟨[], [], [], some ⟨2024, 10, 5⟩⟩, ⟨[], [], [], some ⟨2024, 10, 20⟩⟩,
   ⟨[], [], [], some ⟨2024, 11, 2⟩⟩, ⟨[], [], [], none⟩]

/-- A filter with a valid date range and no text filters. -/
def fOK : SearchFilter := ⟨⟨2024, 10, 1⟩, ⟨2024, 10, 30⟩, [], []⟩

/-- A filter whose start date is after its end date. -/
def fBad : SearchFilter := ⟨⟨2024, 10, 30⟩, ⟨2024, 10, 1⟩, [], []⟩

/-- A filter with generic name `Ibuprofen` (length 9). -/
def fIbuprofen : SearchFilter :=
  ⟨⟨2024, 10, 1⟩, ⟨2024, 10, 30⟩, [], lit "Ibuprofen"⟩

/-- A filter with generic name `Ibu` (length 3). -/
def fIbu : SearchFilter := ⟨⟨2024, 10, 1⟩, ⟨2024, 10, 30⟩, [], lit "Ibu"⟩

/-- A filter with manufacturer input `Pfizer` (length 6). -/
def fPfizer : SearchFilter :=
  ⟨⟨2024, 10, 1⟩, ⟨2024, 10, 30⟩, lit "Pfizer", []⟩

/-- A filter whose manufacturer input `Pfiz*` (length 5) coincides with
its own first 4 characters followed by the wildcard marker. -/
def fPfizStar : SearchFilter :=
  ⟨⟨2024, 10, 1⟩, ⟨2024, 10, 30⟩, lit "Pfiz*", []⟩

/-- The date-range clause is part of the expression after the optional
manufacturer clause is appended. -/
theorem base_infix_man (f : SearchFilter) : baseQuery f <:+: manQuery f := by
  unfold manQuery
  split
  · exact ⟨[], lit " AND openfda.manufacturer_name:" ++
      f.manufacturer_name.take 4 ++ lit "*", by simp⟩
  · exact ⟨[], [], by simp⟩

/-- The expression after the manufacturer clause is part of the final
expression. -/
theorem man_infix_search (f : SearchFilter) : manQuery f <:+: searchQuery f := by
  unfold searchQuery
  split
  · split
    · exact ⟨[], lit " AND openfda.generic_name.exact:\"" ++
        f.generic_name ++ lit "\"", by simp⟩
    · exact ⟨[], lit " AND openfda.generic_name:" ++
        f.generic_name.take 4 ++ lit "*", by simp⟩
  · exact ⟨[], [], by simp⟩

/-- `monthLe` is transitive. -/
theorem monthLe_trans : ∀ a b c : Nat × Nat,
    monthLe a b = true → monthLe b c = true → monthLe a c = true := by
  intro a b c
  simp only [monthLe, Bool.or_eq_true, Bool.and_eq_true, Nat.blt_eq,
    Nat.ble_eq, beq_iff_eq]
  omega

/-- `monthLe` is total. -/
theorem monthLe_total : ∀ a b : Nat × Nat,
    (monthLe a b || monthLe b a) = true := by
  intro a b
  simp only [monthLe, Bool.or_eq_true, Bool.and_eq_true, Nat.blt_eq,
    Nat.ble_eq, beq_iff_eq]
  omega

/-- `monthLe` together with distinctness gives the strict chronological
order on (year, month) keys. -/
theorem monthLt_of_le_ne {a b : Nat × Nat} (hle : monthLe a b = true)
    (hne : a ≠ b) : a.1 < b.1 ∨ (a.1 = b.1 ∧ a.2 < b.2) := by
  obtain ⟨x, y⟩ := a
  obtain ⟨u, v⟩ := b
  simp only [ne_eq, Prod.mk.injEq, not_and] at hne
  simp only [monthLe, Bool.or_eq_true, Bool.and_eq_true, Nat.blt_eq,
    Nat.ble_eq, beq_iff_eq] at hle
  show x < u ∨ (x = u ∧ y < v)
  by_cases hx : x = u
  · subst hx
    have hy : y ≠ v := fun hv => hne rfl hv
    omega
  · omega

/-- The bucket keys of `aggregate` are the sorted deduplicated month
keys. -/
theorem aggregate_keys (rows : List NormalizedRow) :
    (aggregate rows).map Prod.fst =
      (monthKeys rows).dedup.mergeSort monthLe := by
  unfold aggregate
  rw [List.map_map]
  exact List.map_id _

/-- The sorted deduplicated month keys have no duplicates. -/
theorem aggregate_keys_nodup (rows : List NormalizedRow) :
    ((monthKeys rows).dedup.mergeSort monthLe).Nodup :=
  ( List.mergeSort_perm (monthKeys rows).dedup monthLe).symm.nodup
    (List.nodup_dedup _)

/-- On the shapes where the Python indexing cannot raise, `getField`
returns exactly the value the spec prescribes. -/
theorem getField_eq (v : Option (List Str))
    (h : presentNonempty v) : getField v = some (specField v) := by
  match v with
  | none => rfl
  | some [] => exact absurd rfl (h [] rfl)
  | some (x :: xs) => rfl

/-- Sum of an indicator over a list not containing the tested value. -/
theorem indSum_zero {α : Type} [BEq α] [LawfulBEq α] (a : α) (ks : List α)
    (h : a ∉ ks) : (ks.map fun k => if a == k then 1 else 0).sum = 0 := by
  induction ks with
  | nil => rfl
  | cons k kt ih =>
    simp only [List.mem_cons, not_or] at h
    rw [List.map_cons, List.sum_cons, if_neg (by simp [h.1]), ih h.2]

/-- Sum of an indicator over a duplicate-free list containing the
tested value. -/
theorem indSum_one {α : Type} [BEq α] [LawfulBEq α] (a : α) (ks : List α)
    (hn : ks.Nodup) (h : a ∈ ks) :
    (ks.map fun k => if a == k then 1 else 0).sum = 1 := by
  induction ks with
  | nil => cases h
  | cons k kt ih =>
    obtain ⟨hk, hkt⟩ := List.nodup_cons.mp hn
    rcases List.mem_cons.mp h with rfl | hmem
    · rw [List.map_cons, List.sum_cons, if_pos (by simp), indSum_zero a kt hk]
    · have hka : a ≠ k := fun hak => hk (hak ▸ hmem)
      rw [List.map_cons, List.sum_cons, if_neg (by simp [hka]), ih hkt hmem]

/-- Summing pointwise sums of two functions over a list. -/
theorem mapSum_add {α : Type} (f g : α → Nat) (l : List α) :
    (l.map fun x => f x + g x).sum = (l.map f).sum + (l.map g).sum := by
  induction l with
  | nil => rfl
  | cons x xs ih =>
    simp only [List.map_cons, List.sum_cons, ih]
    omega

/-- Summing the per-key occurrence counts of `l` over a duplicate-free
key list covering all elements of `l` gives the length of `l`. -/
theorem sum_counts_nodup {α : Type} [BEq α] [LawfulBEq α] (ks : List α) :
    ∀ l : List α, ks.Nodup → (∀ x ∈ l, x ∈ ks) →
      (ks.map fun k => l.count k).sum = l.length := by
  intro l
  induction l with
  | nil =>
    intro _ _
    simp [List.count_nil]
  | cons a t ih =>
    intro hn hsub
    simp only [List.count_cons]
    rw [mapSum_add (fun k => List.count k t) (fun k => if a == k then 1 else 0) ks]
    rw [ih hn (fun x hx => hsub x (List.mem_cons_of_mem a hx))]
    rw [indSum_one a ks hn (hsub a (List.mem_cons_self a t))]
    simp

/-- C1 counterexample: on a record whose `openfda.brand_name` is present
but an empty sequence, `normalize` fails (the Python `[0]` raises
IndexError), refuting the claim that it returns a row for every
RawRecord. -/
theorem C1_counterexample :
    normalize ⟨some ⟨some [], none, none⟩, none⟩ = none := rfl

/-- C1 (amended): for every RawRecord each of whose present openfda name
fields is a non-empty sequence, `normalize` succeeds and gives each name
field element 0 of its sequence when present and the sentinel `"N/A"`
when the `openfda` object or the field is absent; `effective_time`
defaults through the string `'N/A'`, hence parses to null when absent.
When a field is present as an empty sequence, normalization fails
instead of degrading. -/
theorem C1_normalize_amended :
    ∀ r : RawRecord,
      presentNonempty (r.openfda.getD ⟨none, none, none⟩).brand_name →
      presentNonempty (r.openfda.getD ⟨none, none, none⟩).generic_name →
      presentNonempty (r.openfda.getD ⟨none, none, none⟩).manufacturer_name →
      normalize r = some
        ⟨specField (r.openfda.getD ⟨none, none, none⟩).brand_name,
         specField (r.openfda.getD ⟨none, none, none⟩).generic_name,
         specField (r.openfda.getD ⟨none, none, none⟩).manufacturer_name,
         parseYYYYMMDD (r.effective_time.getD (lit "N/A"))⟩ := by
  intro r hb hg hm
  unfold normalize
  rw [getField_eq _ hb, getField_eq _ hg, getField_eq _ hm]
  rfl

/-- C1 witness: the amended theorem applied to the record missing all
openfda fields yields the spec's `{"N/A","N/A","N/A", null}` row. -/
theorem C1_normalize_amended_witness :
    presentNonempty (none : Option (List Str)) ∧
    normalize ⟨none, none⟩ =
      some ⟨ lit "N/A", lit "N/A", lit "N/A", none⟩ :=
  ⟨fun _ h => Option.noConfusion h,
   C1_normalize_amended ⟨none, none⟩ (fun _ h => Option.noConfusion h)
     (fun _ h => Option.noConfusion h) (fun _ h => Option.noConfusion h)⟩

/-- C2 counterexample: the exported header line is the five-column one —
line 84 added `Approval Month` to the dataframe before `to_csv` ran at
line 103 — not the four-column header the claim states. -/
theorem C2_counterexample :
    (toCsv []).head? = some
      (lit "Brand Name,Generic Name,Manufacturer Name,Effective Time,Approval Month") ∧
    (toCsv []).head? ≠ some
      (lit "Brand Name,Generic Name,Manufacturer Name,Effective Time") := by
  decide

/-- C2 (amended): the CSV export serializes exactly one body line per
NormalizedRow under a single header line, with no index column; the
header holds the four base columns plus the `Approval Month` column that
line 84 added to the dataframe before the export. -/
theorem C2_csv_amended (rows : List NormalizedRow) :
    toCsv rows =
      List.intercalate (lit ",") (dfBaseColumns ++ [ lit "Approval Month"]) ::
        rows.map csvRow ∧
    (toCsv rows).length = rows.length + 1 := by
  refine ⟨rfl, ?_⟩
  simp [toCsv]

/-- C3: for every non-empty generic-name input, the built expression
contains the AND-ed exact-match clause with the full quoted name when
its length exceeds 4, and the AND-ed prefix-wildcard clause built from
its first 4 characters when its length is at most 4. -/
theorem C3_generic_name_clause (f : SearchFilter) (h : f.generic_name ≠ []) :
    (4 < f.generic_name.length →
      ( lit " AND openfda.generic_name.exact:\"" ++ f.generic_name ++ lit "\"")
        <:+: searchQuery f) ∧
    (f.generic_name.length ≤ 4 →
      ( lit " AND openfda.generic_name:" ++ f.generic_name.take 4 ++ lit "*")
        <:+: searchQuery f) := by
  constructor
  · intro hl
    unfold searchQuery
    rw [if_pos h, if_pos hl]
    exact ⟨manQuery f, [], by simp⟩
  · intro hl
    unfold searchQuery
    rw [if_pos h, if_neg (by omega)]
    exact ⟨manQuery f, [], by simp⟩

/-- C3 witness: `Ibuprofen` (length 9) produces the exact-match clause
and `Ibu` (length 3) produces the prefix-wildcard clause. -/
theorem C3_generic_name_clause_witness :
    ((lit "Ibuprofen") ≠ [] ∧ 4 < (lit "Ibuprofen").length ∧
      ( lit " AND openfda.generic_name.exact:\"" ++ lit "Ibuprofen" ++ lit "\"")
        <:+: searchQuery fIbuprofen) ∧
    ((lit "Ibu") ≠ [] ∧ (lit "Ibu").length ≤ 4 ∧
      ( lit " AND openfda.generic_name:" ++ (lit "Ibu").take 4 ++ lit "*")
        <:+: searchQuery fIbu) :=
  ⟨⟨by decide, by decide,
    (C3_generic_name_clause fIbuprofen (by decide)).1 (by decide)⟩,
   ⟨by decide, by decide,
    (C3_generic_name_clause fIbu (by decide)).2 (by decide)⟩⟩

/-- C4: `aggregate` buckets exactly the non-null month keys (one bucket
per distinct key), each bucket counts the rows bearing its key, the
buckets are strictly ascending chronologically, and the spec's four-row
example yields exactly (2024-10 → 2) then (2024-11 → 1), the null row
excluded. -/
theorem C4_aggregate_buckets :
    (∀ rows : List NormalizedRow,
      (∀ k : Nat × Nat,
        k ∈ (aggregate rows).map Prod.fst ↔ k ∈ monthKeys rows) ∧
      ((aggregate rows).map Prod.fst).Nodup ∧
      (∀ p ∈ aggregate rows, p.2 = (monthKeys rows).count p.1) ∧
      (aggregate rows).Pairwise (fun p q =>
        p.1.1 < q.1.1 ∨ (p.1.1 = q.1.1 ∧ p.1.2 < q.1.2))) ∧
    aggregate rows4 = [((2024, 10), 2), ((2024, 11), 1)] := by
  constructor
  · intro rows
    refine ⟨?_, ?_, ?_, ?_⟩
    · intro k
      rw [aggregate_keys, ( List.mergeSort_perm _ _).mem_iff, List.mem_dedup]
    · rw [aggregate_keys]
      exact aggregate_keys_nodup rows
    · intro p hp
      rcases List.mem_map.mp hp with ⟨k, _, rfl⟩
      rfl
    · have hs := List.sorted_mergeSort monthLe_trans monthLe_total
        (monthKeys rows).dedup
      have hcomb := hs.and (aggregate_keys_nodup rows)
      exact List.pairwise_map.mpr (hcomb.imp fun h => monthLt_of_le_ne h.1 h.2)
  · unfold aggregate
    rw [show (monthKeys rows4).dedup = [(2024, 10), (2024, 11)] from by decide]
    rw [ List.mergeSort_of_sorted (by decide)]
    decide

/-- C4 witness: the bucket-key membership and the bucket count of the
October bucket, instantiated on the spec's four-row example. -/
theorem C4_aggregate_buckets_witness :
    ((2024, 10) ∈ (aggregate rows4).map Prod.fst ↔
      (2024, 10) ∈ monthKeys rows4) ∧
    (((2024, 10), 2) : (Nat × Nat) × Nat).2 =
      (monthKeys rows4).count ((2024, 10), 2).1 :=
  ⟨(C4_aggregate_buckets.1 rows4).1 (2024, 10),
   (C4_aggregate_buckets.1 rows4).2.2.1 ((2024, 10), 2)
     (by rw [C4_aggregate_buckets.2]; exact List.mem_cons_self _ _)⟩

/-- C5: every row `normalize` produces carries as `effective_time` the
result of parsing the raw top-level string (defaulted to `'N/A'`) as
`YYYYMMDD`, which is null — never the string sentinel, unrepresentable
in that column — on parse failure; `"20241015"` parses to October 15,
2024 and `"bad-date"` to null. -/
theorem C5_effective_time_parse :
    (∀ (r : RawRecord) (row : NormalizedRow), normalize r = some row →
      row.effective_time = parseYYYYMMDD (r.effective_time.getD (lit "N/A"))) ∧
    parseYYYYMMDD (lit "20241015") = some ⟨2024, 10, 15⟩ ∧
    parseYYYYMMDD (lit "bad-date") = none ∧
    normalize ⟨none, some (lit "20241015")⟩ =
      some ⟨ lit "N/A", lit "N/A", lit "N/A", some ⟨2024, 10, 15⟩⟩ ∧
    normalize ⟨none, some (lit "bad-date")⟩ =
      some ⟨ lit "N/A", lit "N/A", lit "N/A", none⟩ := by
  refine ⟨?_, by decide, by decide, by decide, by decide⟩
  intro r row h
  unfold normalize at h
  cases hb : getField (r.openfda.getD ⟨none, none, none⟩).brand_name with
  | none => rw [hb] at h; cases h
  | some b =>
    cases hg : getField (r.openfda.getD ⟨none, none, none⟩).generic_name with
    | none => rw [hb, hg] at h; cases h
    | some g =>
      cases hm : getField (r.openfda.getD ⟨none, none, none⟩).manufacturer_name with
      | none => rw [hb, hg, hm] at h; cases h
      | some m =>
        rw [hb, hg, hm] at h
        cases h
        rfl

/-- C5 witness: the general conjunct applied to the record carrying
`effective_time = "20241015"`. -/
theorem C5_effective_time_parse_witness :
    normalize ⟨none, some (lit "20241015")⟩ =
      some ⟨ lit "N/A", lit "N/A", lit "N/A", some ⟨2024, 10, 15⟩⟩ ∧
    (⟨ lit "N/A", lit "N/A", lit "N/A",
        some ⟨2024, 10, 15⟩⟩ : NormalizedRow).effective_time =
      parseYYYYMMDD ((some (lit "20241015") : Option Str).getD (lit "N/A")) :=
  ⟨by decide,
   C5_effective_time_parse.1 ⟨none, some (lit "20241015")⟩ _ (by decide)⟩

/-- C6: for every filter whose start date is not after its end date, the
validation passes and the built expression contains the literal
substring `effective_time:[START TO END]` with both dates formatted as
`YYYYMMDD`. -/
theorem C6_date_range_clause (f : SearchFilter)
    (h : ¬ Date.lt f.end_date f.start_date) :
    buildQuery f = BuildResult.query ⟨searchQuery f, 500⟩ ∧
    ( lit "effective_time:[" ++ fmtYYYYMMDD f.start_date ++ lit " TO " ++
        fmtYYYYMMDD f.end_date ++ lit "]") <:+: searchQuery f := by
  constructor
  · unfold buildQuery
    rw [if_neg h]
  · exact (base_infix_man f).trans (man_infix_search f)

/-- C6 witness: the range clause for October 1-30, 2024. -/
theorem C6_date_range_clause_witness :
    (¬ Date.lt fOK.end_date fOK.start_date) ∧
    (buildQuery fOK = BuildResult.query ⟨searchQuery fOK, 500⟩ ∧
      ( lit "effective_time:[" ++ fmtYYYYMMDD fOK.start_date ++ lit " TO " ++
        fmtYYYYMMDD fOK.end_date ++ lit "]") <:+: searchQuery fOK) :=
  ⟨by decide, C6_date_range_clause fOK (by decide)⟩

set_option maxRecDepth 8000 in
/-- C7 counterexample: for the manufacturer input `Pfiz*` (length 5 > 4)
the built expression does contain the full original string — the clause
built from the first 4 characters plus the wildcard marker reproduces it
— refuting the claim's "never the full original string". -/
theorem C7_counterexample :
    4 < (lit "Pfiz*").length ∧
    (lit "Pfiz*") <:+: searchQuery fPfizStar :=
  ⟨by decide,
   ⟨lit "effective_time:[20241001 TO 20241030] AND openfda.manufacturer_name:",
    [], by decide⟩⟩

/-- C7 (amended): for every non-empty manufacturer input the expression
contains the AND-ed manufacturer clause made of the input's first 4
characters and a trailing wildcard marker; when the input is longer than
4 characters, the clause does not contain the full original string
unless the original is exactly its own first 4 characters followed by
the wildcard marker. -/
theorem C7_manufacturer_clause (f : SearchFilter)
    (h : f.manufacturer_name ≠ []) :
    ( lit " AND openfda.manufacturer_name:" ++
        f.manufacturer_name.take 4 ++ lit "*") <:+: searchQuery f ∧
    (4 < f.manufacturer_name.length →
      f.manufacturer_name ≠ f.manufacturer_name.take 4 ++ lit "*" →
      ¬ f.manufacturer_name <:+: (f.manufacturer_name.take 4 ++ lit "*")) := by
  constructor
  · refine List.IsInfix.trans ?_ (man_infix_search f)
    unfold manQuery
    rw [if_pos h]
    exact ⟨baseQuery f, [], by simp⟩
  · intro hl hne hinf
    have h5 : (f.manufacturer_name.take 4 ++ lit "*").length = 5 := by
      simp [List.length_take, lit]
      omega
    have hle := hinf.length_le
    exact hne (hinf.eq_of_length (by omega))

/-- C7 witness: for `Pfizer` the clause uses `Pfiz` plus the wildcard
and never contains the full six-character string. -/
theorem C7_manufacturer_clause_witness :
    (lit "Pfizer") ≠ [] ∧
    ( lit " AND openfda.manufacturer_name:" ++
        (lit "Pfizer").take 4 ++ lit "*") <:+: searchQuery fPfizer ∧
    (4 < (lit "Pfizer").length ∧
      (lit "Pfizer") ≠ (lit "Pfizer").take 4 ++ lit "*" ∧
      ¬ (lit "Pfizer") <:+: ((lit "Pfizer").take 4 ++ lit "*")) :=
  ⟨by decide,
   (C7_manufacturer_clause fPfizer (by decide)).1,
   ⟨by decide, by decide,
    (C7_manufacturer_clause fPfizer (by decide)).2 (by decide) (by decide)⟩⟩

/-- C8: the fetch handler shows the network-error message exactly when
the request fails at transport level or the status is one
`raise_for_status` raises on (4xx/5xx) — then no table, chart or
download exists — while a non-raising response whose `results` array is
missing or empty shows the informational message. -/
theorem C8_fetch_network_errors (o : HttpOutcome) :
    (handleFetch o = Display.errorMessage ↔
      (o = HttpOutcome.transportError ∨
        ∃ s results, o = HttpOutcome.response s results ∧
          statusRaises s = true)) ∧
    (∀ s results, statusRaises s = false →
      (results = none ∨ results = some ([] : List RawRecord)) →
      handleFetch (HttpOutcome.response s results) = Display.infoMessage) := by
  constructor
  · cases o with
    | transportError => simp [handleFetch, fetch]
    | response s results =>
      by_cases hs : statusRaises s
      · simp only [handleFetch, fetch, hs, if_true]
        constructor
        · intro _
          exact Or.inr ⟨s, results, rfl, hs⟩
        · intro _
          trivial
      · simp only [handleFetch, fetch, hs, if_false]
        constructor
        · intro h
          cases hr : results.getD [] with
          | nil => rw [hr] at h; cases h
          | cons a t => rw [hr] at h; cases h
        · intro h
          rcases h with h | ⟨s', r', heq, hraise⟩
          · cases h
          · cases heq
            exact absurd hraise hs
  · intro s results hs hres
    rcases hres with rfl | rfl <;> simp [handleFetch, fetch, hs]

/-- C8 witness: an HTTP 500 shows the error message; a 200 with no
`results` array shows the informational empty-result message. -/
theorem C8_fetch_network_errors_witness :
    handleFetch (HttpOutcome.response 500 none) = Display.errorMessage ∧
    statusRaises 200 = false ∧
    handleFetch (HttpOutcome.response 200 none) = Display.infoMessage :=
  ⟨(C8_fetch_network_errors (HttpOutcome.response 500 none)).1.mpr
      (Or.inr ⟨500, none, rfl, by decide⟩),
   by decide,
   (C8_fetch_network_errors (HttpOutcome.response 200 none)).2 200 none
     (by decide) (Or.inl rfl)⟩

/-- C9: the run ends in the validation error exactly when the start date
is strictly later than the end date (and then the network outcome is
never consumed); otherwise, equality included, it proceeds to the fetch. -/
theorem C9_date_validation (f : SearchFilter) (o : HttpOutcome) :
    (runApp f o = AppOutcome.validationError ↔
      Date.lt f.end_date f.start_date) ∧
    (¬ Date.lt f.end_date f.start_date →
      runApp f o = AppOutcome.fetched (handleFetch o)) := by
  by_cases h : Date.lt f.end_date f.start_date
  · refine ⟨⟨fun _ => h, fun _ => ?_⟩, fun hc => absurd h hc⟩
    simp [runApp, buildQuery, h]
  · have hr : runApp f o = AppOutcome.fetched (handleFetch o) := by
      simp [runApp, buildQuery, h]
    refine ⟨⟨fun hv => ?_, fun hlt => absurd hlt h⟩, fun _ => hr⟩
    rw [hr] at hv
    cases hv

/-- C9 witness: the inverted date range yields the validation error; the
valid range proceeds to the fetch. -/
theorem C9_date_validation_witness :
    runApp fBad HttpOutcome.transportError = AppOutcome.validationError ∧
    runApp fOK HttpOutcome.transportError =
      AppOutcome.fetched (handleFetch HttpOutcome.transportError) :=
  ⟨(C9_date_validation fBad HttpOutcome.transportError).1.mpr (by decide),
   (C9_date_validation fOK HttpOutcome.transportError).2 (by decide)⟩

/-- C10: the bucket counts of `aggregate` sum to the number of rows with
a non-null `effective_time` — every non-null row lands in exactly one
bucket and no bucket counts anything else. -/
theorem C10_counts_partition (rows : List NormalizedRow) :
    ((aggregate rows).map Prod.snd).sum =
      (rows.filter fun r => r.effective_time.isSome).length := by
  have h1 : (aggregate rows).map Prod.snd =
      ((monthKeys rows).dedup.mergeSort monthLe).map
        fun k => (monthKeys rows).count k := by
    unfold aggregate
    rw [List.map_map]
    rfl
  rw [h1]
  have hperm := (( List.mergeSort_perm (monthKeys rows).dedup monthLe).map
    fun k => (monthKeys rows).count k)
  rw [hperm.sum_eq]
  rw [sum_counts_nodup (monthKeys rows).dedup (monthKeys rows)
    (List.nodup_dedup _) (fun x hx => List.mem_dedup.mpr hx)]
  unfold monthKeys
  rw [List.length_filterMap_eq_countP, List.countP_eq_length_filter]
  have hfun : (fun r => (rowMonth r).isSome) =
      fun r : NormalizedRow => r.effective_time.isSome := by
    funext r
    cases h : r.effective_time <;> simp [rowMonth, h]
  rw [hfun]

end FDA
